import Mathlib

set_option maxRecDepth 100000
set_option maxHeartbeats 2000000

/-!
Shallow embedding of the biometric-pipeline repository
(`TP1_desarrollo/main.py` and `TP1_desarrollo/verificar_cadena.py`).

Structure of the development:
* `SHA256`: an executable SHA-256 over byte lists (`Nat` values `< 256`),
  mirroring `hashlib.sha256(...).hexdigest()`.
* Python-value model: Python floats are modelled by their `repr` string
  (`repr` is injective on floats, and only the rendered text enters the
  hash input), and the `str()` rendering of the `datos` dictionaries is
  reproduced character by character.
* `TP1Main`: the ledger-builder side (`main.py`): sliding window,
  statistics, alert detection, block construction, generator loop.
* `TP1Verif`: the independent verifier (`verificar_cadena.py`).
-/

/-- A single-quote character as a string (used by Python `repr` of `str`
and of `dict` keys). -/
def sQuote : String := String.singleton (Char.ofNat 39)

/-- An opening brace as a string. -/
def lbr : String := "\x7b"

/-- A closing brace as a string. -/
def rbr : String := "\x7d"

namespace SHA256

/-- Truncate to a 32-bit word. -/
def w32 (n : Nat) : Nat := n % 4294967296

/-- Right rotation of a 32-bit word. -/
def rotr32 (x n : Nat) : Nat := w32 ((x >>> n) ||| (x <<< (32 - n)))

/-- Bitwise choice. -/
def chooseB (x y z : Nat) : Nat := (x &&& y) ^^^ ((x ^^^ 4294967295) &&& z)

/-- Bitwise majority. -/
def majB (x y z : Nat) : Nat := (x &&& y) ^^^ (x &&& z) ^^^ (y &&& z)

/-- Big sigma 0. -/
def bigSigma0 (x : Nat) : Nat := rotr32 x 2 ^^^ rotr32 x 13 ^^^ rotr32 x 22

/-- Big sigma 1. -/
def bigSigma1 (x : Nat) : Nat := rotr32 x 6 ^^^ rotr32 x 11 ^^^ rotr32 x 25

/-- Small sigma 0. -/
def smallSigma0 (x : Nat) : Nat := rotr32 x 7 ^^^ rotr32 x 18 ^^^ (x >>> 3)

/-- Small sigma 1. -/
def smallSigma1 (x : Nat) : Nat := rotr32 x 17 ^^^ rotr32 x 19 ^^^ (x >>> 10)

/-- The 64 SHA-256 round constants. -/
def K : List Nat :=
  [1116352408, 1899447441, 3049323471, 3921009573,
   961987163, 1508970993, 2453635748, 2870763221,
   3624381080, 310598401, 607225278, 1426881987,
   1925078388, 2162078206, 2614888103, 3248222580,
   3835390401, 4022224774, 264347078, 604807628,
   770255983, 1249150122, 1555081692, 1996064986,
   2554220882, 2821834349, 2952996808, 3210313671,
   3336571891, 3584528711, 113926993, 338241895,
   666307205, 773529912, 1294757372, 1396182291,
   1695183700, 1986661051, 2177026350, 2456956037,
   2730485921, 2820302411, 3259730800, 3345764771,
   3516065817, 3600352804, 4094571909, 275423344,
   430227734, 506948616, 659060556, 883997877,
   958139571, 1322822218, 1537002063, 1747873779,
   1955562222, 2024104815, 2227730452, 2361852424,
   2428436474, 2756734187, 3204031479, 3329325298]

/-- The eight-word working state. -/
structure St where
  a : Nat
  b : Nat
  c : Nat
  d : Nat
  e : Nat
  f : Nat
  g : Nat
  h : Nat
deriving DecidableEq, Repr

/-- Initial hash value. -/
def init : St :=
  ⟨1779033703, 3144134277, 1013904242, 2773480762,
   1359893119, 2600822924, 528734635, 1541459225⟩

/-- Render `n` as `k` big-endian bytes. -/
def beBytes (k n : Nat) : List Nat :=
  (List.range k).map (fun i => (n >>> (8 * (k - 1 - i))) % 256)

/-- SHA-256 padding of a byte message. -/
def padBytes (msg : List Nat) : List Nat :=
  msg ++ (128 :: List.replicate ((119 - msg.length % 64) % 64) 0)
      ++ beBytes 8 (8 * msg.length)

/-- Split into 64-byte chunks (fuel-driven so that it reduces in the
kernel). -/
def chunksAux : Nat → List Nat → List (List Nat)
  | 0, _ => []
  | _ + 1, [] => []
  | fuel + 1, l => l.take 64 :: chunksAux fuel (l.drop 64)

/-- The sixteen 32-bit words of one 64-byte chunk. -/
def words16 (chunk : List Nat) : List Nat :=
  (List.range 16).map (fun i =>
    chunk.getD (4 * i) 0 * 16777216 + chunk.getD (4 * i + 1) 0 * 65536 +
    chunk.getD (4 * i + 2) 0 * 256 + chunk.getD (4 * i + 3) 0)

/-- Extend the 16-word message schedule to 64 words. -/
def extendW : Nat → List Nat → List Nat
  | 0, w => w
  | n + 1, w =>
    extendW n (w ++ [w32 (smallSigma1 (w.getD (w.length - 2) 0) + w.getD (w.length - 7) 0 +
                          smallSigma0 (w.getD (w.length - 15) 0) + w.getD (w.length - 16) 0)])

/-- One compression round. -/
def round1 (s : St) (kw : Nat × Nat) : St :=
  let t1 := w32 (s.h + bigSigma1 s.e + chooseB s.e s.f s.g + kw.1 + kw.2)
  let t2 := w32 (bigSigma0 s.a + majB s.a s.b s.c)
  ⟨w32 (t1 + t2), s.a, s.b, s.c, w32 (s.d + t1), s.e, s.f, s.g⟩

/-- Compress one 64-byte chunk into the running state. -/
def compress (s : St) (chunk : List Nat) : St :=
  let w := extendW 48 (words16 chunk)
  let r := (K.zip w).foldl round1 s
  ⟨w32 (s.a + r.a), w32 (s.b + r.b), w32 (s.c + r.c), w32 (s.d + r.d),
   w32 (s.e + r.e), w32 (s.f + r.f), w32 (s.g + r.g), w32 (s.h + r.h)⟩

/-- One hex digit. -/
def hexChar (n : Nat) : Char :=
  if n < 10 then Char.ofNat (48 + n) else Char.ofNat (87 + n)

/-- A 32-bit word as 8 hex characters. -/
def hex8 (n : Nat) : List Char :=
  (List.range 8).map (fun i => hexChar ((n >>> (4 * (7 - i))) % 16))

/-- Full hex digest of a state. -/
def digest (s : St) : String :=
  String.mk (hex8 s.a ++ hex8 s.b ++ hex8 s.c ++ hex8 s.d ++
             hex8 s.e ++ hex8 s.f ++ hex8 s.g ++ hex8 s.h)

/-- SHA-256 hex digest of a byte message. -/
def sha256Bytes (msg : List Nat) : String :=
  let padded := padBytes msg
  digest ((chunksAux padded.length padded).foldl compress init)

/-- UTF-8 encoding of one code point. -/
def utf8EncodeNat (n : Nat) : List Nat :=
  if n < 128 then [n]
  else if n < 2048 then [192 + n / 64, 128 + n % 64]
  else if n < 65536 then [224 + n / 4096, 128 + (n / 64) % 64, 128 + n % 64]
  else [240 + n / 262144, 128 + (n / 4096) % 64, 128 + (n / 64) % 64, 128 + n % 64]

/-- UTF-8 bytes of a string (mirrors Python's `str.encode()`). -/
def utf8 (s : String) : List Nat :=
  (s.data.map (fun c => utf8EncodeNat c.toNat)).flatten

/-- Model of `hashlib.sha256(s.encode()).hexdigest()`. -/
def sha256Hex (s : String) : String := sha256Bytes (utf8 s)

end SHA256

/-!
## Python value model for block `datos`

A block's `datos` is a Python dict mapping each channel name to a dict
with keys `media` and `desv` holding floats. After `json.dump`/`json.load`
both the structure and the dict (insertion) order survive unchanged, and
Python's float `repr` round-trips through JSON, so the builder's in-memory
value and the verifier's loaded value render identically. A float is
modelled by its `repr` string; the structure is at most one dict deep,
which is all the program ever produces or inspects.
-/

/-- A scalar Python value as it appears inside `datos` entries. -/
inductive PyLeaf where
  | num (r : String)
  | str (s : String)
  | bool (b : Bool)
deriving DecidableEq, Repr

/-- The value bound to one channel key inside `datos`: either a dict of
scalars (the shape the builder always produces) or a bare scalar (possible
in a hand-edited ledger, rejected by the verifier's `isinstance` check). -/
inductive PyEntryVal where
  | dict (entries : List (String × PyLeaf))
  | leaf (v : PyLeaf)
deriving DecidableEq, Repr

/-- Python `repr` of a scalar. -/
def PyLeaf.pyRepr : PyLeaf → String
  | .num r => r
  | .str s => sQuote ++ s ++ sQuote
  | .bool b => if b then "True" else "False"

/-- Python `repr` of a channel entry. -/
def PyEntryVal.pyRepr : PyEntryVal → String
  | .dict es =>
      lbr ++ String.intercalate ", "
        (es.map (fun p => sQuote ++ p.1 ++ sQuote ++ ": " ++ p.2.pyRepr)) ++ rbr
  | .leaf v => v.pyRepr

/-- Python `str()` of the whole `datos` dict, exactly as interpolated into
the hash input by both `calculate_hash` implementations. -/
def datosStr (datos : List (String × PyEntryVal)) : String :=
  lbr ++ String.intercalate ", "
    (datos.map (fun p => sQuote ++ p.1 ++ sQuote ++ ": " ++ p.2.pyRepr)) ++ rbr

/-- The original biometric sample as produced by
`BiometricGenerator.generate_sample`: a timestamp string, `frecuencia`,
`presion` as a `[sistolica, diastolica]` list, and `oxigeno`. -/
structure Reading where
  timestamp : String
  frecuencia : Int
  presion : List Int
  oxigeno : Int
deriving DecidableEq, Repr

/-- One entry of `pending_results[timestamp]` as assembled by
`BlockchainVerifier.run` in `main.py`: the rounded `media` and `desv`
floats (modelled by their `repr` strings) plus the embedded original
sample (`result.get("original_data")`, which may be `None`). -/
structure BEntry where
  media : String
  desv : String
  originalData : Option Reading
deriving DecidableEq, Repr

/-- A persisted block. The five fields are exactly the keys
`create_block` writes and `verify_block` lists as required; modelling a
block as a structure fixes all five as present, which covers every block
this program constructs or that the claims quantify over. -/
structure VBlock where
  timestamp : String
  datos : List (String × PyEntryVal)
  alerta : Bool
  prev_hash : String
  hash : String
deriving DecidableEq, Repr

instance : Inhabited VBlock := ⟨⟨"", [], false, "", ""⟩⟩

namespace TP1Main

/-!
## `main.py`
-/

/-- Eviction loop of `BiometricAnalyzer.update_window`: pop entries from
the front while the newest timestamp minus the front timestamp exceeds
30, stopping at the first entry inside the window (`else: break`).
Window entries are `(timestamp, value)` pairs; logical timestamps are
integers (seconds), values are the extracted channel scalars. -/
def evict : List (Int × ℚ) → Int → List (Int × ℚ)
  | [], _ => []
  | (ts, x) :: rest, now =>
      if now - ts > 30 then evict rest now else (ts, x) :: rest

/-- Model of `BiometricAnalyzer.update_window`: append the new `(timestamp, value)`
entry, then evict stale entries from the front using the new entry's own
timestamp as "now". -/
def update_window (w : List (Int × ℚ)) (t : Int) (v : ℚ) : List (Int × ℚ) :=
  evict (w ++ [(t, v)]) t

/-- The window after feeding a whole list of readings, starting empty. -/
def feedWindow (rs : List (Int × ℚ)) : List (Int × ℚ) :=
  rs.foldl (fun w r => update_window w r.1 r.2) []

/-- Model of `BiometricAnalyzer.calculate_statistics`: `(0, 0)` on an empty window;
otherwise the arithmetic mean and, for `n > 1`, the square root of the
sum of squared deviations divided by `n - 1` (`** 0.5` is real square
root on its nonnegative argument), else `0`. -/
noncomputable def calculate_statistics (w : List (Int × ℚ)) : ℚ × ℝ :=
  if w = [] then (0, 0)
  else
    let values := w.map Prod.snd
    let n := values.length
    let mean : ℚ := values.sum / n
    if n > 1 then
      let variance : ℚ := ((values.map (fun x => (x - mean) ^ 2)).sum) / (n - 1)
      (mean, Real.sqrt (variance : ℝ))
    else
      (mean, 0)

/-- The scan at the top of `BlockchainVerifier.is_valid_data`: iterate
`results.values()` and take the first record's `original_data`. (Every
record built by `run` carries the `original_data` key, so the loop always
breaks on the first record; the stored value may still be `None`.) -/
def findOriginalData : List (String × BEntry) → Option Reading
  | [] => none
  | (_, e) :: _ => e.originalData

/-- Model of `BlockchainVerifier.is_valid_data` (`main.py`): alert when no original
data is found, otherwise check the raw sample against the fixed
thresholds — `frecuencia >= 200`, `oxigeno` outside `[90, 100]`,
`presion[0] >= 200` (with `presion[0]` read as `0` when the list is
empty). The window statistics are never consulted. -/
def is_valid_data (timestamp : String) (results : List (String × BEntry)) : Bool :=
  match findOriginalData results with
  | none => true
  | some od =>
      let frecuencia := od.frecuencia
      let oxigeno := od.oxigeno
      let presion_sistolica := od.presion.headD 0
      decide (frecuencia ≥ 200) ||
      !(decide (90 ≤ oxigeno) && decide (oxigeno ≤ 100)) ||
      decide (presion_sistolica ≥ 200)

/-- Model of `BlockchainVerifier.calculate_hash` (`main.py`):
`sha256(prev_hash + str(datos) + timestamp)` in hex. The `hash` field is
never read (at creation time the key is not present yet). -/
def calculate_hash (b : VBlock) : String :=
  SHA256.sha256Hex (b.prev_hash ++ datosStr b.datos ++ b.timestamp)

/-- Model of `BlockchainVerifier.create_block`: `prev_hash` is the last appended
block's `hash` (or `""` on an empty chain), the alert flag comes from
`is_valid_data`, `datos` keeps only `media`/`desv` per channel in the
insertion order of the results map, and `hash` is computed over the
block-so-far. -/
def create_block (chain : List VBlock) (timestamp : String)
    (results : List (String × BEntry)) : VBlock :=
  let prev_hash := match chain.getLast? with
    | some b => b.hash
    | none => ""
  let alert := is_valid_data timestamp results
  let clean_results := results.map (fun p =>
    (p.1, PyEntryVal.dict [("media", PyLeaf.num p.2.media),
                           ("desv", PyLeaf.num p.2.desv)]))
  let block : VBlock := ⟨timestamp, clean_results, alert, prev_hash, ""⟩
  { block with hash := calculate_hash block }

/-- The chain produced by `BlockchainVerifier.run`: each completed tick
(a timestamp plus its three-channel results map, in completion order) is
turned into a block by `create_block` and appended. -/
def buildLedger (ticks : List (String × List (String × BEntry))) : List VBlock :=
  ticks.foldl (fun chain t => chain ++ [create_block chain t.1 t.2]) []

/-- One broadcast iteration of `BiometricGenerator.run`: send the current
sample to each pipe in order. A dead pipe raises, so the sinks before it
receive the sample and the iteration reports failure. Returns the indices
reached and whether every send succeeded. -/
def sendAllAux : List Bool → Nat → List Nat × Bool
  | [], _ => ([], true)
  | alive :: rest, i =>
      if alive then
        let r := sendAllAux rest (i + 1)
        (i :: r.1, r.2)
      else
        ([], false)

/-- Model of the emission loop of `BiometricGenerator.run` over `n` samples: the inner
`for pipe_conn in pipes` broadcast runs inside the single `try` that wraps
the whole sample loop, so the first failed send aborts every remaining
iteration. Result: the list of per-sample delivery index lists. -/
def generatorRun : Nat → List Bool → List (List Nat)
  | 0, _ => []
  | n + 1, alive =>
      let r := sendAllAux alive 0
      if r.2 then r.1 :: generatorRun n alive else [r.1]

end TP1Main

namespace TP1Verif

/-!
## `verificar_cadena.py`
-/

/-- The configured channel set, in the order `verify_block` checks it. -/
def required_data_fields : List String := ["frecuencia", "presion", "oxigeno"]

/-- Model of `BlockchainVerifier.calculate_hash` (`verificar_cadena.py`): the same
`sha256(prev_hash + str(datos) + timestamp)` recomputation, applied to a
loaded block (whose stored `hash` field is ignored). -/
def calculate_hash (b : VBlock) : String :=
  SHA256.sha256Hex (b.prev_hash ++ datosStr b.datos ++ b.timestamp)

/-- The per-channel structure check inside `verify_block`: the channel key
must be present in `datos`, bound to a dict, and that dict must contain
both `media` and `desv` keys. One error string per violated condition
(the two-subfield check emits a single combined error). -/
def channelErrors (datos : List (String × PyEntryVal)) (c : String) : List String :=
  match datos.lookup c with
  | none => ["Campo de datos " ++ c ++ " faltante"]
  | some (PyEntryVal.leaf _) => ["Campo de datos " ++ c ++ " debe ser un diccionario"]
  | some (PyEntryVal.dict es) =>
      if !(decide ("media" ∈ es.map Prod.fst)) || !(decide ("desv" ∈ es.map Prod.fst)) then
        ["Subcampos media o desv faltantes en " ++ c]
      else []

/-- Model of `BlockchainVerifier.verify_block`: the required-field presence check
is satisfied by every structurally well-formed block (the five keys are
the structure's fields), after which the chain link, the recomputed hash
and the `datos` structure are checked, accumulating error strings. The
block is valid iff no error accumulated. Extra channels beyond the three
required ones are never inspected, and `media`/`desv` values are only
tested for presence, not for their type. -/
def verify_block (index : Nat) (b : VBlock) (expected_prev_hash : String) :
    Bool × List String :=
  let e1 := if b.prev_hash ≠ expected_prev_hash then
      ["Prev_hash incorrecto. Esperado: " ++ expected_prev_hash ++
       ", Encontrado: " ++ b.prev_hash]
    else []
  let calculated := calculate_hash b
  let e2 := if b.hash ≠ calculated then
      ["Hash incorrecto. Esperado: " ++ calculated ++ ", Encontrado: " ++ b.hash]
    else []
  let e3 := (required_data_fields.map (channelErrors b.datos)).flatten
  let errors := e1 ++ e2 ++ e3
  (errors.isEmpty, errors)

/-- The verification walk of `verify_blockchain`: every block is visited
(a failing block is recorded and the scan continues), and
`expected_prev_hash` is reassigned to the block's stored `hash` only in
the `block_valid` branch — on a failing block it keeps its old value.
Returns each block's `(valid, errors)` verdict in order. -/
def verifyFrom (i : Nat) (expected_prev_hash : String) :
    List VBlock → List (Bool × List String)
  | [] => []
  | b :: rest =>
      let r := verify_block i b expected_prev_hash
      r :: verifyFrom (i + 1) (if r.1 then b.hash else expected_prev_hash) rest

/-- The successive values `expected_prev_hash` takes during the walk:
entry `i` is the value used for block `i`, and the final entry is the
value that a further block would be checked against. -/
def expectedSeq (i : Nat) (expected_prev_hash : String) :
    List VBlock → List String
  | [] => [expected_prev_hash]
  | b :: rest =>
      expected_prev_hash ::
        expectedSeq (i + 1)
          (if (verify_block i b expected_prev_hash).1 then b.hash
           else expected_prev_hash) rest

/-- Model of `BlockchainVerifier.verify_blockchain`: `False` on an empty chain,
otherwise the conjunction of all per-block verdicts starting from
`expected_prev_hash = ""`. -/
def verify_blockchain (chain : List VBlock) : Bool :=
  if chain = [] then false
  else (verifyFrom 0 "" chain).all (fun r => r.1)

end TP1Verif

/-!
## Concrete data used by witnesses and counterexamples

All digest literals below were cross-checked against
`hashlib.sha256((prev_hash + str(datos) + timestamp).encode()).hexdigest()`
on the corresponding Python values.
-/

/-- A normal-range sample. -/
def sampleReading : Reading := ⟨"2025-01-01T00:00:00", 100, [120, 80], 97⟩

/-- A sample with a dangerous heart-rate spike but normal other values. -/
def spikeReading : Reading := ⟨"2025-01-01T00:00:01", 205, [120, 80], 97⟩

/-- A three-channel results map for one completed tick, every record
embedding `sampleReading`. -/
def sampleResults : List (String × BEntry) :=
  [("frecuencia", ⟨"100.0", "0.0", some sampleReading⟩),
   ("presion", ⟨"120.0", "0.0", some sampleReading⟩),
   ("oxigeno", ⟨"97.0", "0.0", some sampleReading⟩)]

/-- The `frecuencia` entry of a persisted `datos` dict. -/
def dFre : String × PyEntryVal :=
  ("frecuencia", PyEntryVal.dict [("media", PyLeaf.num "100.0"), ("desv", PyLeaf.num "0.0")])

/-- The `presion` entry of a persisted `datos` dict. -/
def dPre : String × PyEntryVal :=
  ("presion", PyEntryVal.dict [("media", PyLeaf.num "120.0"), ("desv", PyLeaf.num "0.0")])

/-- The `oxigeno` entry of a persisted `datos` dict. -/
def dOxi : String × PyEntryVal :=
  ("oxigeno", PyEntryVal.dict [("media", PyLeaf.num "97.0"), ("desv", PyLeaf.num "0.0")])

/-- A fourth channel entry that the configuration does not know about. -/
def dExtra : String × PyEntryVal :=
  ("extra", PyEntryVal.dict [("media", PyLeaf.num "1.0"), ("desv", PyLeaf.num "0.0")])

/-- The genesis block built from `sampleResults` at timestamp `t0`
(`hash` as computed by `create_block`). -/
def sampleBlock0 : VBlock :=
  ⟨"t0", [dFre, dPre, dOxi], false, "",
   "efe0c9acf8ece4f6bc3ba3cfeb41b42d54cce99ce9478c6778a78e1acef3324a"⟩

/-!
## Shared lemmas
-/

/-- The verifier's recomputation applied to a freshly created block gives
back exactly the stored `hash` field: `create_block` fills `hash` from the
same three components the verifier rereads. -/
theorem verif_hash_create_block (chain : List VBlock) (ts : String)
    (results : List (String × BEntry)) :
    TP1Verif.calculate_hash (TP1Main.create_block chain ts results) =
      (TP1Main.create_block chain ts results).hash := rfl

/-- Folding further ticks onto a chain preserves any per-block property
that every newly created block enjoys. -/
theorem buildLedger_foldl_mem {P : VBlock → Prop}
    (hnew : ∀ chain ts results, P (TP1Main.create_block chain ts results)) :
    ∀ (ticks : List (String × List (String × BEntry))) (chain : List VBlock),
      (∀ b ∈ chain, P b) →
      ∀ b ∈ ticks.foldl (fun c t => c ++ [TP1Main.create_block c t.1 t.2]) chain, P b := by
  intro ticks
  induction ticks with
  | nil => intro chain hchain b hb; exact hchain b hb
  | cons t ts ih =>
      intro chain hchain b hb
      refine ih (chain ++ [TP1Main.create_block chain t.1 t.2]) ?_ b hb
      intro c hc
      rcases List.mem_append.mp hc with h | h
      · exact hchain c h
      · rcases List.mem_singleton.mp h with rfl
        exact hnew chain t.1 t.2

/-!
## Claims
-/

/-- C1: For every block constructed by `BlockchainVerifier.create_block`
in `main.py` and persisted to the ledger, recomputing SHA-256 over
`prev_hash ++ str(datos) ++ timestamp` — as the independent verifier's
`calculate_hash` in `verificar_cadena.py` does — reproduces the block's
stored `hash` field exactly. -/
theorem hash_roundtrip_for_every_built_block
    (ticks : List (String × List (String × BEntry))) (b : VBlock)
    (hb : b ∈ TP1Main.buildLedger ticks) :
    TP1Verif.calculate_hash b = b.hash := by
  refine buildLedger_foldl_mem (P := fun b => TP1Verif.calculate_hash b = b.hash)
    ?_ ticks [] (by simp) b hb
  intro chain ts results
  exact verif_hash_create_block chain ts results

/-- Witness for C1 at a concrete one-tick ledger. -/
theorem hash_roundtrip_witness :
    TP1Verif.calculate_hash sampleBlock0 = sampleBlock0.hash :=
  hash_roundtrip_for_every_built_block [("t0", sampleResults)] sampleBlock0
    (by decide)

/-- The second block of the two-tick ledger over `sampleResults`
(`prev_hash` is `sampleBlock0.hash`). -/
def sampleBlock1 : VBlock :=
  ⟨"t1", [dFre, dPre, dOxi], false,
   "efe0c9acf8ece4f6bc3ba3cfeb41b42d54cce99ce9478c6778a78e1acef3324a",
   "e561210a0d3073d2ca969757cd1b65c6ef833109a33506fdf35094a677a30f1d"⟩

/-- The chain-link invariant of C2, phrased over optional indexing. -/
def ChainLinked (L : List VBlock) : Prop :=
  (∀ b0, L.head? = some b0 → b0.prev_hash = "") ∧
  (∀ i b b', L[i]? = some b → L[i + 1]? = some b' → b'.prev_hash = b.hash)

/-- Appending a block built by `create_block` on top of the current chain
preserves the chain-link invariant: the new block's `prev_hash` is read
off the last block of the very chain it is appended to. -/
theorem chainLinked_append (chain : List VBlock) (ts : String)
    (results : List (String × BEntry)) (h : ChainLinked chain) :
    ChainLinked (chain ++ [TP1Main.create_block chain ts results]) := by
  constructor
  · intro b0 hb0
    cases chain with
    | nil =>
        simp only [List.nil_append, List.head?_cons, Option.some.injEq] at hb0
        subst hb0
        rfl
    | cons c cs =>
        simp only [List.cons_append, List.head?_cons, Option.some.injEq] at hb0
        subst hb0
        exact h.1 c rfl
  · intro i b b' hb hb'
    have hlen' : i + 1 < chain.length + 1 := by
      have := List.getElem?_eq_some.mp hb'
      simpa using this.1
    rcases Nat.lt_or_ge (i + 1) chain.length with hlt | hge
    · have hbc : chain[i]? = some b := by
        rw [List.getElem?_append_left (Nat.lt_of_succ_lt hlt)] at hb; exact hb
      have hbc' : chain[i + 1]? = some b' := by
        rw [List.getElem?_append_left hlt] at hb'; exact hb'
      exact h.2 i b b' hbc hbc'
    · have heq : i + 1 = chain.length := Nat.le_antisymm (Nat.lt_succ_iff.mp hlen') hge
      have hilt : i < chain.length := by omega
      have hbc : chain[i]? = some b := by
        rw [List.getElem?_append_left hilt] at hb; exact hb
      have hb'nb : b' = TP1Main.create_block chain ts results := by
        rw [heq, List.getElem?_concat_length] at hb'
        exact (Option.some.injEq _ _ ▸ hb').symm
      have hlast : chain.getLast? = some b := by
        rw [List.getLast?_eq_getElem?]
        have : chain.length - 1 = i := by omega
        rw [this]; exact hbc
      subst hb'nb
      show (TP1Main.create_block chain ts results).prev_hash = b.hash
      simp [TP1Main.create_block, hlast]

/-- Folding any tick list onto a chain satisfying the invariant yields a
chain satisfying the invariant. -/
theorem buildLedger_chainLinked :
    ∀ (ticks : List (String × List (String × BEntry))) (chain : List VBlock),
      ChainLinked chain →
      ChainLinked (ticks.foldl (fun c t => c ++ [TP1Main.create_block c t.1 t.2]) chain) := by
  intro ticks
  induction ticks with
  | nil => intro chain h; exact h
  | cons t ts ih =>
      intro chain h
      exact ih (chain ++ [TP1Main.create_block chain t.1 t.2])
        (chainLinked_append chain t.1 t.2 h)

/-- C2: For every ledger produced by the Ledger Builder (any sequence
of completed ticks folded through `create_block` by
`BlockchainVerifier.run`), the first appended block has `prev_hash = ""`
and every later block's `prev_hash` equals the `hash` of the immediately
preceding block — an invariant preserved by every append. -/
theorem ledger_chain_link_invariant (ticks : List (String × List (String × BEntry))) :
    (∀ b0, (TP1Main.buildLedger ticks).head? = some b0 → b0.prev_hash = "") ∧
    (∀ i b b', (TP1Main.buildLedger ticks)[i]? = some b →
      (TP1Main.buildLedger ticks)[i + 1]? = some b' → b'.prev_hash = b.hash) :=
  buildLedger_chainLinked ticks [] ⟨by simp, by simp⟩

/-- Witness for C2 on the concrete two-tick ledger. -/
theorem ledger_chain_link_witness :
    sampleBlock0.prev_hash = "" ∧ sampleBlock1.prev_hash = sampleBlock0.hash :=
  ⟨(ledger_chain_link_invariant [("t0", sampleResults), ("t1", sampleResults)]).1
      sampleBlock0 (by decide),
   (ledger_chain_link_invariant [("t0", sampleResults), ("t1", sampleResults)]).2
      0 sampleBlock0 sampleBlock1 (by decide) (by decide)⟩

/-- C3: For every completed tick whose records embed the original
reading, the block's alert flag is true iff that reading has
`frecuencia >= 200`, or `oxigeno` outside `[90, 100]`, or systolic
pressure `presion[0] >= 200` — computed from the raw instantaneous
values; any two results maps embedding the same reading get the same
flag, whatever their `media`/`desv` statistics. -/
theorem alert_iff_raw_thresholds (ts : String) (results : List (String × BEntry))
    (r : Reading) (s : Int) (ds : List Int)
    (hfind : TP1Main.findOriginalData results = some r)
    (hpres : r.presion = s :: ds) :
    (TP1Main.is_valid_data ts results = true ↔
      (200 ≤ r.frecuencia ∨ ¬(90 ≤ r.oxigeno ∧ r.oxigeno ≤ 100) ∨ 200 ≤ s)) ∧
    (∀ ts' results', TP1Main.findOriginalData results' = some r →
      TP1Main.is_valid_data ts' results' = TP1Main.is_valid_data ts results) := by
  constructor
  · simp only [TP1Main.is_valid_data, hfind, hpres, List.headD_cons]
    simp [Bool.or_eq_true, Bool.and_eq_true, decide_eq_true_eq, ge_iff_le]
    omega
  · intro ts' results' hfind'
    simp only [TP1Main.is_valid_data, hfind, hfind']

/-- Witness for C3: a tick embedding a heart-rate spike of 205 raises the
alert flag. -/
theorem alert_iff_raw_thresholds_witness :
    TP1Main.is_valid_data "x"
      [("frecuencia", ⟨"100.0", "0.0", some spikeReading⟩)] = true :=
  (alert_iff_raw_thresholds "x" [("frecuencia", ⟨"100.0", "0.0", some spikeReading⟩)]
      spikeReading 120 [80] (by decide) (by decide)).1.mpr (by decide)

/-- C7: The verifier's per-block verdict is independent of the block's
`alerta` value: two persisted blocks identical in `timestamp`, `datos`,
`prev_hash` and `hash` but differing in `alerta` (both carrying the field)
get the same validity verdict, the same error list and the same recomputed
hash, so flipping a block's alert flag after persistence is never reported
as corruption. -/
theorem verdict_independent_of_alerta (i : Nat) (e ts ph h : String)
    (datos : List (String × PyEntryVal)) (a1 a2 : Bool) :
    TP1Verif.verify_block i ⟨ts, datos, a1, ph, h⟩ e =
      TP1Verif.verify_block i ⟨ts, datos, a2, ph, h⟩ e ∧
    TP1Verif.calculate_hash ⟨ts, datos, a1, ph, h⟩ =
      TP1Verif.calculate_hash ⟨ts, datos, a2, ph, h⟩ :=
  ⟨rfl, rfl⟩

/-- A block whose `datos` binds the three channels in the order
`frecuencia, presion, oxigeno`. -/
def blockOrderA : VBlock := ⟨"t", [dFre, dPre, dOxi], false, "", ""⟩

/-- The same bindings inserted in the order `presion, frecuencia,
oxigeno`. -/
def blockOrderB : VBlock := ⟨"t", [dPre, dFre, dOxi], false, "", ""⟩

/-- Counterexample to C5: two results maps with identical
channel-to-stats bindings (a permutation of one another) and identical
`prev_hash` and `timestamp` hash to different strings, because
`calculate_hash` serializes the dict in insertion order via `str()`. -/
theorem hash_depends_on_insertion_order :
    blockOrderA.datos.Perm blockOrderB.datos ∧
    blockOrderA.prev_hash = blockOrderB.prev_hash ∧
    blockOrderA.timestamp = blockOrderB.timestamp ∧
    TP1Main.calculate_hash blockOrderA ≠ TP1Main.calculate_hash blockOrderB := by
  refine ⟨?_, rfl, rfl, by decide⟩
  have : blockOrderA.datos = [dFre] ++ [dPre] ++ [dOxi] := rfl
  rw [this]
  have : blockOrderB.datos = [dPre] ++ [dFre] ++ [dOxi] := rfl
  rw [this]
  exact (List.perm_append_comm.append_right [dOxi])

/-- C5 (amended): The hash-input serialization is deterministic in
the persisted representation: for blocks agreeing on `prev_hash`, on the
`datos` association list *in its stored order*, and on `timestamp`, the
Ledger Builder's `calculate_hash` and the independent verifier's
`calculate_hash` produce the identical hash string (whatever `alerta` and
the stored `hash` are). Stability under a different insertion order of
the same bindings does **not** hold (see the counterexample): `str()` of
a dict follows insertion order, which JSON persistence preserves. -/
theorem builder_verifier_hash_agree (b b' : VBlock)
    (hp : b.prev_hash = b'.prev_hash) (hd : b.datos = b'.datos)
    (ht : b.timestamp = b'.timestamp) :
    TP1Main.calculate_hash b = TP1Verif.calculate_hash b' := by
  unfold TP1Main.calculate_hash TP1Verif.calculate_hash
  rw [hp, hd, ht]

/-- Witness for amended C5: the builder's hash of a block equals the
verifier's recomputation on the same persisted content even when the
alert flag and stored hash differ. -/
theorem builder_verifier_hash_agree_witness :
    TP1Main.calculate_hash blockOrderA =
      TP1Verif.calculate_hash ⟨"t", [dFre, dPre, dOxi], true, "", "zz"⟩ :=
  builder_verifier_hash_agree blockOrderA ⟨"t", [dFre, dPre, dOxi], true, "", "zz"⟩
    rfl rfl rfl

/-- A block whose `datos` carries a fourth, unconfigured channel, with a
correct stored hash over that four-channel dict. -/
def blockExtra : VBlock :=
  ⟨"t0", [dFre, dPre, dOxi, dExtra], false, "",
   "212632e4b9d05d8f76274e042a310c2ed2c354a721a9b4758f785f5a84f39c10"⟩

/-- Counterexample to C6: `verify_block` accepts a block whose `datos`
contains an extra channel beyond the configured set — the loop only
checks that each required channel is present, never that no other key
exists. -/
theorem extra_channel_not_rejected :
    (TP1Verif.verify_block 0 blockExtra "").1 = true ∧
    "extra" ∈ blockExtra.datos.map Prod.fst ∧
    "extra" ∉ TP1Verif.required_data_fields :=
  ⟨by decide, by decide, by decide⟩

/-- C6 (amended): `verify_block` reports a block as valid only if its
`datos` contains **at least** the configured channels `frecuencia`,
`presion`, `oxigeno`, each bound to a dict that has both `media` and
`desv` keys. Extra channels are not rejected and the `media`/`desv`
values are only checked for presence, not for being numeric. -/
theorem valid_block_has_required_channels (i : Nat) (b : VBlock) (e : String)
    (hv : (TP1Verif.verify_block i b e).1 = true) :
    ∀ c ∈ TP1Verif.required_data_fields,
      ∃ es, b.datos.lookup c = some (PyEntryVal.dict es) ∧
        "media" ∈ es.map Prod.fst ∧ "desv" ∈ es.map Prod.fst := by
  intro c hc
  simp only [TP1Verif.verify_block] at hv
  rw [List.isEmpty_eq_true, List.append_eq_nil, List.append_eq_nil] at hv
  have hflat := hv.2
  rw [List.flatten_eq_nil_iff] at hflat
  have herr : TP1Verif.channelErrors b.datos c = [] :=
    hflat _ (List.mem_map_of_mem (TP1Verif.channelErrors b.datos) hc)
  rcases hlook : b.datos.lookup c with _ | val
  · rw [TP1Verif.channelErrors, hlook] at herr
    exact absurd herr (List.cons_ne_nil _ _)
  · cases val with
    | dict es =>
        refine ⟨es, rfl, ?_⟩
        rw [TP1Verif.channelErrors, hlook] at herr
        rw [ite_eq_right_iff] at herr
        by_contra hmem
        rw [not_and_or] at hmem
        have : (!decide ("media" ∈ es.map Prod.fst) ||
                !decide ("desv" ∈ es.map Prod.fst)) = true := by
          rcases hmem with hm | hm <;> simp [hm]
        exact absurd (herr this) (List.cons_ne_nil _ _)
    | leaf v =>
        rw [TP1Verif.channelErrors, hlook] at herr
        exact absurd herr (List.cons_ne_nil _ _)

/-- Witness for amended C6 at the concrete valid block. -/
theorem valid_block_has_required_channels_witness :
    ∃ es, blockExtra.datos.lookup "frecuencia" = some (PyEntryVal.dict es) ∧
      "media" ∈ es.map Prod.fst ∧ "desv" ∈ es.map Prod.fst :=
  valid_block_has_required_channels 0 blockExtra "" (by decide) "frecuencia"
    (by decide)

/-- A block whose stored `hash` field (`"deadbeef"`) does not match the
recomputation, so `verify_block` fails it. -/
def blockTampered : VBlock := ⟨"t0", [dFre, dPre, dOxi], false, "", "deadbeef"⟩

/-- A follow-up block chained onto `blockTampered`'s *stored* hash, with
its own hash correctly computed over that link — exactly the block that
would pass if the verifier advanced `expected_prev_hash` to the stored
hash of the failing block. -/
def blockAfterTampered : VBlock :=
  ⟨"t1", [dFre, dPre, dOxi], false, "deadbeef",
   "f59b733fed25889ef2b9085992fbb87f0909f25176c38db2d11e7f93f1d62662"⟩

/-- Counterexample to C4: after `blockTampered` fails, the
`expected_prev_hash` used for the next block stays at the previously
expected value `""` — it does **not** advance to the failing block's
stored hash. Consequently `blockAfterTampered`, which would pass against
the stored hash (fourth conjunct), is flagged by the actual walk (fifth
conjunct). -/
theorem expected_prev_hash_does_not_advance :
    (TP1Verif.verify_block 0 blockTampered "").1 = false ∧
    TP1Verif.expectedSeq 0 "" [blockTampered, blockAfterTampered] = ["", "", ""] ∧
    blockTampered.hash ≠ "" ∧
    (TP1Verif.verify_block 1 blockAfterTampered blockTampered.hash).1 = true ∧
    ((TP1Verif.verifyFrom 0 "" [blockTampered, blockAfterTampered]).getD 1
      (false, [])).1 = false :=
  ⟨by decide, by decide, by decide, by decide, by decide⟩

/-- C4 (amended): During verification, a failing block is recorded
and the walk continues to the next block (every block receives a
verdict), but `expected_prev_hash` does **not** advance on a failing
block: the next block is checked against the same expected value the
failing block was checked against (the hash of the last *valid* block),
not against the failing block's stored hash. -/
theorem failing_block_keeps_expected_prev_hash :
    (∀ (i : Nat) (e : String) (b : VBlock) (rest : List VBlock),
      (TP1Verif.verify_block i b e).1 = false →
      TP1Verif.verifyFrom i e (b :: rest) =
        TP1Verif.verify_block i b e :: TP1Verif.verifyFrom (i + 1) e rest) ∧
    (∀ (i : Nat) (e : String) (L : List VBlock),
      (TP1Verif.verifyFrom i e L).length = L.length) := by
  constructor
  · intro i e b rest hfail
    simp only [TP1Verif.verifyFrom, hfail]
    rfl
  · intro i e L
    induction L generalizing i e with
    | nil => rfl
    | cons b rest ih => simp only [TP1Verif.verifyFrom, List.length_cons, ih]

/-- Witness for amended C4 at the concrete tampered block. -/
theorem failing_block_keeps_expected_witness :
    TP1Verif.verifyFrom 0 "" [blockTampered] =
      TP1Verif.verify_block 0 blockTampered "" :: TP1Verif.verifyFrom 1 "" [] ∧
    (TP1Verif.verifyFrom 0 "" [blockTampered]).length = 1 :=
  ⟨failing_block_keeps_expected_prev_hash.1 0 "" blockTampered [] (by decide),
   failing_block_keeps_expected_prev_hash.2 0 "" [blockTampered]⟩

/-- The send-success flag of one broadcast equals "every sink alive". -/
theorem sendAllAux_snd (alive : List Bool) :
    ∀ i, (TP1Main.sendAllAux alive i).2 = alive.all id := by
  induction alive with
  | nil => intro i; rfl
  | cons a rest ih =>
      intro i
      cases a with
      | true => simp [TP1Main.sendAllAux, ih (i + 1)]
      | false => simp [TP1Main.sendAllAux]

/-- Counterexample to C10: with two sinks of which the second is dead,
the generator's run over 2 samples delivers sample 0 to sink 0 and then
stops — the surviving sink 0 never receives sample 1, so the failure is
not confined to the dead sink. -/
theorem dead_sink_aborts_generator :
    TP1Main.generatorRun 2 [true, false] = [[0]] ∧
    ¬ (∀ i < 2, 0 ∈ (TP1Main.generatorRun 2 [true, false]).getD i []) :=
  ⟨by decide, by decide⟩

/-- C10 (amended): If any sink's consumer is gone, the very first
broadcast raises out of the emission loop: the run consists of exactly
one partial broadcast (the sinks before the dead one receive sample 0)
and no further samples are emitted to any sink — the failure aborts the
whole Source rather than dropping only the dead sink. -/
theorem send_failure_aborts_run (alive : List Bool) (n : Nat)
    (hn : 1 ≤ n) (hdead : alive.all id = false) :
    TP1Main.generatorRun n alive = [(TP1Main.sendAllAux alive 0).1] := by
  cases n with
  | zero => omega
  | succ m =>
      simp only [TP1Main.generatorRun, sendAllAux_snd alive 0, hdead]
      rfl

/-- Witness for amended C10 at the concrete two-sink run. -/
theorem send_failure_aborts_run_witness :
    TP1Main.generatorRun 2 [true, false] = [(TP1Main.sendAllAux [true, false] 0).1] :=
  send_failure_aborts_run [true, false] 2 (by decide) (by decide)

/-- On a window sorted by timestamp, the front-eviction loop removes
exactly the stale entries: popping from the front while the head is stale
and stopping at the first fresh entry equals filtering, because every
entry behind a fresh head is at least as fresh. -/
theorem evict_sorted (w : List (Int × ℚ)) (now : Int)
    (hs : List.Pairwise (fun a b => a.1 ≤ b.1) w) :
    TP1Main.evict w now = w.filter (fun e => decide (now - e.1 ≤ 30)) := by
  induction w with
  | nil => rfl
  | cons hd rest ih =>
      obtain ⟨hhead, hrest⟩ := List.pairwise_cons.mp hs
      obtain ⟨ts, x⟩ := hd
      by_cases hgt : now - ts > 30
      · have hdec : decide (now - (ts, x).1 ≤ 30) = false := by
          simp only [decide_eq_false_iff_not]; omega
        simp only [TP1Main.evict, if_pos hgt, List.filter_cons, hdec, Bool.false_eq_true,
          if_false]
        exact ih hrest
      · have hdec : decide (now - (ts, x).1 ≤ 30) = true := by
          simp only [decide_eq_true_eq]; omega
        simp only [TP1Main.evict, if_neg hgt, List.filter_cons, hdec, if_true]
        congr 1
        symm
        apply List.filter_eq_self.mpr
        intro e he
        have := hhead e he
        simp only [decide_eq_true_eq]
        omega

/-- Re-filtering with a later "now" absorbs an earlier filter. -/
theorem filter_window_absorb (l : List (Int × ℚ)) (t t' : Int) (h : t ≤ t') :
    (l.filter (fun e => decide (t - e.1 ≤ 30))).filter
        (fun e => decide (t' - e.1 ≤ 30)) =
      l.filter (fun e => decide (t' - e.1 ≤ 30)) := by
  rw [List.filter_filter]
  apply List.filter_congr
  intro e _
  by_cases h' : t' - e.1 ≤ 30
  · have : t - e.1 ≤ 30 := by omega
    simp [h', this]
  · simp [h']

/-- Auxiliary induction for C8, peeling readings off the right end. -/
theorem feedWindow_filter_aux :
    ∀ (rs : List (Int × ℚ)) (r : Int × ℚ),
      List.Pairwise (fun a b => a.1 ≤ b.1) (rs ++ [r]) →
      TP1Main.feedWindow (rs ++ [r]) =
        (rs ++ [r]).filter (fun e => decide (r.1 - e.1 ≤ 30)) := by
  intro rs
  induction rs using List.reverseRecOn with
  | nil =>
      intro r _
      have hdec : decide (r.1 - r.1 ≤ 30) = true := by
        simp only [decide_eq_true_eq]; omega
      simp [TP1Main.feedWindow, TP1Main.update_window, TP1Main.evict, hdec,
        show ¬(r.1 - r.1 > 30) by omega]
  | append_singleton rs' r' ih =>
      intro r hs
      have hsplit := List.pairwise_append.mp hs
      have hs' : List.Pairwise (fun a b : Int × ℚ => a.1 ≤ b.1) (rs' ++ [r']) := hsplit.1
      have hle : ∀ a ∈ rs' ++ [r'], a.1 ≤ r.1 := by
        intro a ha
        exact hsplit.2.2 a ha r (List.mem_singleton_self r)
      have hr'r : r'.1 ≤ r.1 :=
        hle r' (List.mem_append_right rs' (List.mem_singleton_self r'))
      have hW := ih r' hs'
      have hstep : TP1Main.feedWindow ((rs' ++ [r']) ++ [r]) =
          TP1Main.update_window (TP1Main.feedWindow (rs' ++ [r'])) r.1 r.2 := by
        simp [TP1Main.feedWindow, List.foldl_append]
      rw [hstep, hW]
      set W := (rs' ++ [r']).filter (fun e => decide (r'.1 - e.1 ≤ 30)) with hWdef
      have hWsorted : List.Pairwise (fun a b : Int × ℚ => a.1 ≤ b.1) W :=
        hs'.sublist (List.filter_sublist _)
      have hWr : List.Pairwise (fun a b : Int × ℚ => a.1 ≤ b.1) (W ++ [r]) := by
        refine List.pairwise_append.mpr ⟨hWsorted, List.pairwise_singleton _ _, ?_⟩
        intro a ha b hb
        rcases List.mem_singleton.mp hb with rfl
        exact hle a ((List.filter_sublist _).subset ha)
      have hupd : TP1Main.update_window W r.1 r.2 =
          (W ++ [r]).filter (fun e => decide (r.1 - e.1 ≤ 30)) := by
        have : W ++ [(r.1, r.2)] = W ++ [r] := by simp
        rw [TP1Main.update_window, this]
        exact evict_sorted (W ++ [r]) r.1 hWr
      rw [hupd, List.filter_append, hWdef, filter_window_absorb _ _ _ hr'r,
        ← List.filter_append]

/-- C8: For a channel analyzer fed readings in increasing
logical-timestamp order, after `update_window` processes the reading with
timestamp `T` the sliding window contains exactly the entries whose
timestamp `t` satisfies `T - t <= 30` — older entries are evicted from
the front using `T`, the latest entry's own timestamp, as "now". -/
theorem window_contains_exactly_recent (rs : List (Int × ℚ)) (r : Int × ℚ)
    (hs : List.Pairwise (fun a b => a.1 ≤ b.1) (rs ++ [r])) :
    TP1Main.feedWindow (rs ++ [r]) =
      (rs ++ [r]).filter (fun e => decide (r.1 - e.1 ≤ 30)) :=
  feedWindow_filter_aux rs r hs

/-- Witness for C8: readings at timestamps 0, 20, 40 leave exactly the
entries within 30 units of 40 in the window. -/
theorem window_contains_exactly_recent_witness :
    TP1Main.feedWindow ([((0 : Int), (1 : ℚ)), (20, 2)] ++ [(40, 3)]) =
      ([((0 : Int), (1 : ℚ)), (20, 2)] ++ [(40, 3)]).filter
        (fun e => decide ((40 : Int) - e.1 ≤ 30)) :=
  window_contains_exactly_recent [((0 : Int), (1 : ℚ)), (20, 2)] (40, 3) (by decide)

/-- Closed form of `calculate_statistics` on windows with more than one
entry. -/
theorem calculate_statistics_of_one_lt (w : List (Int × ℚ)) (hw : 1 < w.length) :
    TP1Main.calculate_statistics w =
      ((w.map Prod.snd).sum / (w.length : ℚ),
       Real.sqrt ((((w.map Prod.snd).map
          (fun x => (x - (w.map Prod.snd).sum / (w.length : ℚ)) ^ 2)).sum /
            ((w.length : ℚ) - 1) : ℚ))) := by
  have hne : w ≠ [] := List.ne_nil_of_length_pos (by omega)
  have hgt : (w.map Prod.snd).length > 1 := by rw [List.length_map]; exact hw
  simp only [TP1Main.calculate_statistics, if_neg hne, if_pos hgt, List.length_map]
  rw [if_pos hw]

/-- C9: the source `calculate_statistics` returns `(0, 0)` on an empty window;
on a singleton window it returns the value itself with standard deviation
exactly `0`; and on a window of `n > 1` values it returns the arithmetic
mean while the standard deviation squares back to the sum of squared
deviations divided by the unbiased `n - 1` divisor (and is nonnegative,
pinning it down as that square root). -/
theorem statistics_spec :
    TP1Main.calculate_statistics [] = (0, 0) ∧
    (∀ (t : Int) (v : ℚ), TP1Main.calculate_statistics [(t, v)] = (v, 0)) ∧
    (∀ w : List (Int × ℚ), 1 < w.length →
      (TP1Main.calculate_statistics w).1 = (w.map Prod.snd).sum / (w.length : ℚ) ∧
      (TP1Main.calculate_statistics w).2 ^ 2 * ((w.length : ℝ) - 1) =
        ((((w.map Prod.snd).map
            (fun x => (x - (w.map Prod.snd).sum / (w.length : ℚ)) ^ 2)).sum : ℚ) : ℝ) ∧
      0 ≤ (TP1Main.calculate_statistics w).2) := by
  refine ⟨by simp [TP1Main.calculate_statistics], ?_, ?_⟩
  · intro t v
    simp [TP1Main.calculate_statistics]
  · intro w hw
    rw [calculate_statistics_of_one_lt w hw]
    refine ⟨rfl, ?_, Real.sqrt_nonneg _⟩
    set S : ℚ := ((w.map Prod.snd).map
      (fun x => (x - (w.map Prod.snd).sum / (w.length : ℚ)) ^ 2)).sum with hSdef
    have hS : (0 : ℚ) ≤ S := by
      apply List.sum_nonneg
      intro x hx
      obtain ⟨y, _, rfl⟩ := List.mem_map.mp hx
      exact sq_nonneg _
    have hc : (0 : ℚ) < (w.length : ℚ) - 1 := by
      have : (1 : ℚ) < (w.length : ℚ) := by exact_mod_cast hw
      linarith
    have hV : (0 : ℚ) ≤ S / ((w.length : ℚ) - 1) := div_nonneg hS hc.le
    rw [Real.sq_sqrt (by exact_mod_cast hV)]
    have hcast : ((w.length : ℝ) - 1) = (((w.length : ℚ) - 1 : ℚ) : ℝ) := by
      push_cast
      ring
    rw [hcast, ← Rat.cast_mul, div_mul_cancel₀ _ (ne_of_gt hc)]

/-- Witness for C9 at concrete windows. -/
theorem statistics_spec_witness :
    TP1Main.calculate_statistics [] = (0, 0) ∧
    TP1Main.calculate_statistics [((0 : Int), (5 : ℚ))] = (5, 0) ∧
    (TP1Main.calculate_statistics [((0 : Int), (1 : ℚ)), (1, 3)]).1 =
      (([((0 : Int), (1 : ℚ)), (1, 3)]).map Prod.snd).sum / (2 : ℚ) ∧
    0 ≤ (TP1Main.calculate_statistics [((0 : Int), (1 : ℚ)), (1, 3)]).2 :=
  ⟨statistics_spec.1, statistics_spec.2.1 0 5,
   by
     have h := (statistics_spec.2.2 [((0 : Int), (1 : ℚ)), (1, 3)] (by norm_num)).1
     simpa using h,
   (statistics_spec.2.2 [((0 : Int), (1 : ℚ)), (1, 3)] (by norm_num)).2.2⟩
